import Mathlib

/-!
Verification development for the Oracle_Trader repository.

The definitions below are a shallow embedding of the repository's Python
sources:
  * `strategy.py`  — `ranked_momentum_rotation_strategy`
  * `refiner.py`   — `backtest_strategy`, `nominate_council_from_hall_of_fame`,
                     `run_shadow_simulation`
  * `finance_manager.py` — `process_pending_withdrawal`,
                     `check_and_process_withdrawal`

Python floats are modelled as rationals (ℚ); pandas `NaN` entries are
modelled as `Option.none`; the PostgreSQL key/value store is modelled as an
explicit record of the finance keys; individual `_set_finance_value` /
`_clear_finance_value` calls are modelled as an explicit list of store
writes, so that an execution failure in the middle of an invocation can be
modelled as applying only a prefix of the writes.
-/

namespace OracleTrader

/-- A pandas DataFrame of price history: `nrows` is the length of the index,
and `cols` holds one `(asset, price column)` pair per `<asset>_price`
column, in DataFrame column order.  Asset names are the part of the column
name before the first underscore (as computed by `col.split('_')[0]` in the
source), so they contain no underscore.  In a well-formed frame every
column has length `nrows` and a `btc` column is present. -/
structure PriceSeries where
  nrows : Nat
  cols : List (String × List ℚ)
deriving DecidableEq, Repr

/-- Column lookup, `df['<a>_price']`.  A missing column is modelled as the
empty column (the Python would raise a `KeyError`). -/
def PriceSeries.col (df : PriceSeries) (a : String) : List ℚ :=
  (df.cols.lookup a).getD []

/-- The asset names of the `_price` columns, in column order
(`df.filter(like='_price').columns` with the `_price` suffix stripped). -/
def price_assets (df : PriceSeries) : List String :=
  df.cols.map Prod.fst

/-- `series.rolling(window=w).mean()`: entry `t` is the mean of the last
`w` values ending at `t`, `none` (NaN) while fewer than `w` values are
available or when `w = 0`. -/
def rollingMean (w : Nat) (xs : List ℚ) : List (Option ℚ) :=
  (List.range xs.length).map (fun t =>
    if 1 ≤ w ∧ w ≤ t + 1 then
      some ((((xs.drop (t + 1 - w)).take w).sum) / (w : ℚ))
    else none)

/-- `signals['in_market']` at row `t`:
`df['btc_price'] > signals['btc_mavg']`.  A pandas comparison against NaN
(or a missing row) yields `False`. -/
def in_market (df : PriceSeries) (trend_window : Nat) (t : Nat) : Bool :=
  match (rollingMean trend_window (df.col "btc")).get? t,
        (df.col "btc").get? t with
  | some (some m), some p => m < p
  | _, _ => false

/-- `df[col] / df[col].shift(w) - 1` at row `t`: `none` (NaN) for the first
`w` rows or out of range. -/
def momentum (w : Nat) (xs : List ℚ) (t : Nat) : Option ℚ :=
  match xs.get? t, (if w ≤ t then xs.get? (t - w) else none) with
  | some p, some q => some (p / q - 1)
  | _, _ => none

/-- `signals[momentum_cols].idxmax(axis=1)` at row `t`: the first asset (in
column order) attaining the maximum momentum, NaN entries skipped; `none`
when every asset's momentum is NaN. -/
def best_asset (df : PriceSeries) (momentum_window : Nat) (t : Nat) :
    Option String :=
  (df.cols.foldl (fun acc c =>
    match momentum momentum_window c.2 t with
    | none => acc
    | some v =>
      match acc with
      | none => some (c.1, v)
      | some bw => if bw.2 < v then some (c.1, v) else some bw) none).map
    Prod.fst

/-- `ranked_momentum_rotation_strategy` from `strategy.py`: one signal per
input row; `'hold_usdt'` where `in_market` is false, otherwise the mapped
best-asset signal `'hold_<asset>'`, which is NaN (`none`) when the best
asset is NaN. -/
def ranked_momentum_rotation_strategy (df : PriceSeries)
    (trend_window momentum_window : Nat) : List (Option String) :=
  (List.range df.nrows).map (fun t =>
    if in_market df trend_window t then
      (best_asset df momentum_window t).map (fun a => "hold_" ++ a)
    else some "hold_usdt")

/-- A rules dictionary `{'trend_window': _, 'momentum_window': _}`. -/
structure Rules where
  trend_window : Nat
  momentum_window : Nat
deriving DecidableEq, Repr

/-- `signals.shift(1)` at row `t`: the previous row's signal, NaN at row 0. -/
def held_asset_signal (df : PriceSeries) (rules : Rules) (t : Nat) :
    Option String :=
  if t = 0 then none
  else
    ((ranked_momentum_rotation_strategy df rules.trend_window
        rules.momentum_window).get? (t - 1)).join

/-- Python `str.split('_')` on a character list. -/
def splitSegs : List Char → List (List Char)
  | [] => [[]]
  | c :: cs =>
    let r := splitSegs cs
    if c = '_' then [] :: r
    else
      match r with
      | [] => [[c]]
      | s :: rest => (c :: s) :: rest

/-- `signal.split('_')[1]`: the asset part of a `'hold_<asset>'` signal. -/
def signal_asset (sig : String) : Option String :=
  ((splitSegs sig.toList).get? 1).map (fun cs => String.mk cs)

/-- `df[price_cols].pct_change()` for asset `a` at row `t`:
`(p[t] - p[t-1]) / p[t-1]`, with 0 standing for the NaN at row 0 (rows
where it is read are always ≥ 1). -/
def pct_change (df : PriceSeries) (a : String) (t : Nat) : ℚ :=
  match (df.col a).get? t, (if 1 ≤ t then (df.col a).get? (t - 1) else none) with
  | some p, some q => (p - q) / q
  | _, _ => 0

/-- The body of the scoring loop in `backtest_strategy`: the entry of
`portfolio_returns` at row `t`.  Rows whose shifted signal is NaN are
skipped by `dropna` and keep the 0.0 default; `'hold_usdt'` rows get 0;
otherwise the held asset's `pct_change` return (0 when its price column is
absent). -/
def portfolio_return (df : PriceSeries) (rules : Rules) (t : Nat) : ℚ :=
  match held_asset_signal df rules t with
  | none => 0
  | some sig =>
    if sig = "hold_usdt" then 0
    else
      match signal_asset sig with
      | none => 0
      | some a => if a ∈ price_assets df then pct_change df a t else 0

/-- `backtest_strategy` from `refiner.py`: 0 on a null or empty DataFrame,
otherwise the final value of `(1 + portfolio_returns).cumprod()`. -/
def backtest_strategy (df? : Option PriceSeries) (rules : Rules) : ℚ :=
  match df? with
  | none => 0
  | some df =>
    if df.nrows = 0 ∨ df.cols = [] then 0
    else
      ((List.range df.nrows).map
        (fun t => 1 + portfolio_return df rules t)).prod

/-- The asset effectively held during row `t` under the code's scoring
loop: the asset whose return is applied at `t`, or `"usdt"` when the row
earns the 0.0 default (NaN signal, `'hold_usdt'`, or a missing column). -/
def period_asset (df : PriceSeries) (rules : Rules) (t : Nat) : String :=
  match held_asset_signal df rules t with
  | none => "usdt"
  | some sig =>
    if sig = "hold_usdt" then "usdt"
    else
      match signal_asset sig with
      | none => "usdt"
      | some a => if a ∈ price_assets df then a else "usdt"

/-- Modelled from the spec: the repository's `backtest_strategy` takes no
fee rate; this definition follows the spec's words for the missing fee
logic — "If the asset to hold differs from `held_asset`, apply the fee
once: `portfolio_value *= (1 − fee_rate)`, then switch `held_asset`" — on
top of the code's per-period returns. -/
def backtest_with_fee_spec (fee : ℚ) (df : PriceSeries) (rules : Rules) : ℚ :=
  if df.nrows = 0 ∨ df.cols = [] then 0
  else
    ((List.range df.nrows).foldl (fun acc t =>
      ((if period_asset df rules t ≠ acc.2 then acc.1 * (1 - fee) else acc.1) *
        (1 + portfolio_return df rules t), period_asset df rules t))
      ((1 : ℚ), "usdt")).1

/-- The number of asset switches performed by the backtest's held-asset
sequence, starting from the stable asset. -/
def numSwitches (df : PriceSeries) (rules : Rules) : Nat :=
  ((List.range df.nrows).foldl (fun acc t =>
    (acc.1 + (if period_asset df rules t ≠ acc.2 then 1 else 0),
     period_asset df rules t)) ((0 : Nat), "usdt")).1

/-- A row of the `configurations` table (the Hall of Fame). -/
structure Config where
  id : Nat
  trend_window : Nat
  momentum_window : Nat
  backtest_score : ℚ
  shadow_score : ℚ
deriving DecidableEq, Repr

/-- The ordering key of the nomination query:
`backtest_score + shadow_score`. -/
def configScore (c : Config) : ℚ :=
  c.backtest_score + c.shadow_score

/-- Insert a configuration into a descending-sorted list, before the first
entry whose key is not larger.  Used only to construct one admissible query
result below. -/
def insertDesc (c : Config) : List Config → List Config
  | [] => [c]
  | d :: ds =>
    if configScore d ≤ configScore c then c :: d :: ds
    else d :: insertDesc c ds

/-- A descending insertion sort of the table: one admissible order of the
nomination query's result, used to show that such an order always
exists. -/
def sortDesc : List Config → List Config
  | [] => []
  | c :: cs => insertDesc c (sortDesc cs)

def NUM_COUNCIL_MEMBERS : Nat := 5

/-- An admissible result of the nomination query
`SELECT * FROM configurations ORDER BY (backtest_score + shadow_score) DESC`:
SQL guarantees only that the returned rows are the stored rows arranged
descending by the key.  The query names no secondary sort key, so
PostgreSQL leaves the relative order of rows with equal keys unspecified
and the query denotes a set of admissible row orders, not one list. -/
def IsQueryResult (table res : List Config) : Prop :=
  res.Perm table ∧
  List.Pairwise (fun a b => configScore b ≤ configScore a) res

/-- `nominate_council_from_hall_of_fame` from `refiner.py`, as a relation
on possible outcomes: a council is a possible nomination from the stored
table iff it is `df.head(NUM_COUNCIL_MEMBERS)` of some admissible result of
the query (an empty or unreadable table reads as the empty DataFrame,
whose only admissible result is empty). -/
def nominate_council_from_hall_of_fame (table council : List Config) : Prop :=
  ∃ res, IsQueryResult table res ∧ council = res.take NUM_COUNCIL_MEMBERS

/-- `UPDATE configurations SET shadow_score = v WHERE id = i`. -/
def update_shadow_score (table : List Config) (i : Nat) (v : ℚ) :
    List Config :=
  table.map (fun c => if c.id = i then { c with shadow_score := v } else c)

/-- `run_shadow_simulation` from `refiner.py`, acting on the persisted
table.  `fails` injects an execution failure while scoring or persisting a
given member's update; the source loop has no per-member exception
handling, so the first failure aborts the remaining iterations, leaving
earlier updates committed. -/
def run_shadow_simulation (fails : Nat → Bool) (df? : Option PriceSeries)
    (council : List Config) (table : List Config) : List Config :=
  match council with
  | [] => table
  | m :: rest =>
    if fails m.id then table
    else
      run_shadow_simulation fails df? rest
        (update_shadow_score table m.id
          (m.shadow_score +
            backtest_strategy df? ⟨m.trend_window, m.momentum_window⟩))

/-! ## Finance manager (`finance_manager.py`) -/

def PROFITS_WITHDRAWAL_PERCENTAGE : ℚ := 1 / 2

def WITHDRAWAL_DAYS : List Nat := [1, 15]

def DEFAULT_WITHDRAWAL_CURRENCY : String := "btc"

/-- The finance keys of the persisted `key_value_store`.  `none` models an
absent key (or, for the user-supplied strings, a falsy empty value). -/
structure FinanceState where
  high_water_mark : Option ℚ
  total_tax_provision : Option ℚ
  pending_withdrawal_amount_usd : Option ℚ
  pending_withdrawal_currency : Option String
  last_withdrawal_check : Option String
  user_withdrawal_address : Option String
  user_withdrawal_currency : Option String
deriving DecidableEq, Repr

/-- One `_set_finance_value` / `_clear_finance_value` call on a finance
key. -/
inductive FinWrite where
  | set_high_water_mark (v : ℚ)
  | set_pending_amount (v : ℚ)
  | set_pending_currency (c : String)
  | clear_pending_amount
  | clear_pending_currency
  | set_last_check (d : String)
deriving DecidableEq, Repr

def applyWrite (s : FinanceState) (w : FinWrite) : FinanceState :=
  match w with
  | .set_high_water_mark v => { s with high_water_mark := some v }
  | .set_pending_amount v => { s with pending_withdrawal_amount_usd := some v }
  | .set_pending_currency c => { s with pending_withdrawal_currency := some c }
  | .clear_pending_amount => { s with pending_withdrawal_amount_usd := none }
  | .clear_pending_currency => { s with pending_withdrawal_currency := none }
  | .set_last_check d => { s with last_withdrawal_check := some d }

def applyWrites (ws : List FinWrite) (s : FinanceState) : FinanceState :=
  ws.foldl applyWrite s

/-- An executed `_execute_withdrawal` call. -/
structure Withdrawal where
  amount_crypto : ℚ
  currency : String
  address : String
deriving DecidableEq, Repr

/-- The per-cycle external inputs: today's calendar day and date string,
the account value reported by the exchange, and the current asset prices
(the source's price placeholder only returns strictly positive prices). -/
structure CycleInput where
  today_day : Nat
  today_str : String
  account_value : ℚ
  asset_price : String → ℚ

/-- The store writes and executed withdrawals of
`process_pending_withdrawal`.  `none` models the uncaught exception raised
when a pending amount and address exist but the pending currency key is
absent (`currency.lower()` on `None`): the invocation aborts with no
writes. -/
def process_pending_writes (s : FinanceState) (inp : CycleInput) :
    Option (List FinWrite × List Withdrawal) :=
  match s.pending_withdrawal_amount_usd with
  | none => some ([], [])
  | some pending_usd =>
    match s.user_withdrawal_address with
    | none => some ([], [])
    | some addr =>
      match s.pending_withdrawal_currency with
      | none => none
      | some currency =>
        some ([.clear_pending_amount, .clear_pending_currency],
          [⟨pending_usd / inp.asset_price currency, currency, addr⟩])

/-- `process_pending_withdrawal` from `finance_manager.py`, as a state
transformer (`none` = uncaught exception). -/
def process_pending_withdrawal (s : FinanceState) (inp : CycleInput) :
    Option (FinanceState × List Withdrawal) :=
  (process_pending_writes s inp).map (fun p => (applyWrites p.1 s, p.2))

/-- The writes and withdrawals of the scheduled-day part of
`check_and_process_withdrawal` (lines 150–202), starting from the store
state left by the pending drain. -/
def scheduled_check_writes (s1 : FinanceState) (inp : CycleInput) :
    List FinWrite × List Withdrawal :=
  if inp.today_day ∈ WITHDRAWAL_DAYS then
    if s1.last_withdrawal_check = some inp.today_str then ([], [])
    else
      -- On first run, HWM is the current account value.
      if (s1.high_water_mark.getD inp.account_value) < inp.account_value then
        match s1.user_withdrawal_address with
        | some addr =>
          ([.set_high_water_mark inp.account_value,
            .set_last_check inp.today_str],
           [⟨((inp.account_value - s1.high_water_mark.getD inp.account_value) *
                PROFITS_WITHDRAWAL_PERCENTAGE) /
              inp.asset_price
                (s1.user_withdrawal_currency.getD DEFAULT_WITHDRAWAL_CURRENCY),
             s1.user_withdrawal_currency.getD DEFAULT_WITHDRAWAL_CURRENCY,
             addr⟩])
        | none =>
          ([.set_high_water_mark inp.account_value,
            .set_pending_amount
              ((inp.account_value - s1.high_water_mark.getD inp.account_value) *
                PROFITS_WITHDRAWAL_PERCENTAGE),
            .set_pending_currency
              (s1.user_withdrawal_currency.getD DEFAULT_WITHDRAWAL_CURRENCY),
            .set_last_check inp.today_str], [])
      else ([.set_last_check inp.today_str], [])
  else ([], [])

/-- The full write/withdrawal trace of one `check_and_process_withdrawal`
invocation: the pending drain runs first, then the scheduled-day check on
the drained store. -/
def check_and_process_writes (s : FinanceState) (inp : CycleInput) :
    List FinWrite × List Withdrawal :=
  match process_pending_writes s inp with
  | none => ([], [])
  | some (w1, wd1) =>
    let p2 := scheduled_check_writes (applyWrites w1 s) inp
    (w1 ++ p2.1, wd1 ++ p2.2)

/-- `check_and_process_withdrawal` from `finance_manager.py`, run to
completion. -/
def check_and_process_withdrawal (s : FinanceState) (inp : CycleInput) :
    FinanceState × List Withdrawal :=
  (applyWrites (check_and_process_writes s inp).1 s,
   (check_and_process_writes s inp).2)

/-- One invocation whose execution fails after the first `k` store writes
(`k` at least the trace length = the invocation completes). -/
def run_truncated (s : FinanceState) (inp : CycleInput) (k : Nat) :
    FinanceState :=
  applyWrites ((check_and_process_writes s inp).1.take k) s

/-- A sequence of invocations, each with its own inputs and failure
point. -/
def run_sequence (steps : List (CycleInput × Nat)) (s : FinanceState) :
    FinanceState :=
  steps.foldl (fun st p => run_truncated st p.1 p.2) s

/-- "Never decreases": the high-water-mark key is unchanged, or was present
and now holds a strictly larger value. -/
def hwmRel (a b : Option ℚ) : Prop :=
  a = b ∨ ∃ u v, a = some u ∧ b = some v ∧ u < v

/-! ## Helper lemmas -/

theorem applyWrites_cons (w : FinWrite) (ws : List FinWrite) (s : FinanceState) :
    applyWrites (w :: ws) s = applyWrites ws (applyWrite s w) := rfl

theorem applyWrites_hwm_cases (ws : List FinWrite) :
    ∀ s : FinanceState,
      (applyWrites ws s).high_water_mark = s.high_water_mark ∨
      ∃ v, FinWrite.set_high_water_mark v ∈ ws ∧
        (applyWrites ws s).high_water_mark = some v := by
  induction ws with
  | nil => intro s; left; rfl
  | cons w ws ih =>
    intro s
    rw [applyWrites_cons]
    rcases ih (applyWrite s w) with h | ⟨v, hv, he⟩
    · cases w with
      | set_high_water_mark v =>
        exact Or.inr ⟨v, List.mem_cons_self _ _, h.trans rfl⟩
      | set_pending_amount v => exact Or.inl (h.trans rfl)
      | set_pending_currency c => exact Or.inl (h.trans rfl)
      | clear_pending_amount => exact Or.inl (h.trans rfl)
      | clear_pending_currency => exact Or.inl (h.trans rfl)
      | set_last_check d => exact Or.inl (h.trans rfl)
    · exact Or.inr ⟨v, List.mem_cons_of_mem _ hv, he⟩

/-- The pending drain can only produce the two clear-writes, and the store
fields other than the two pending keys are untouched by them. -/
theorem drain_writes_shape (s : FinanceState) (inp : CycleInput)
    (w1 : List FinWrite) (wd1 : List Withdrawal)
    (h : process_pending_writes s inp = some (w1, wd1)) :
    (applyWrites w1 s).high_water_mark = s.high_water_mark ∧
    (applyWrites w1 s).last_withdrawal_check = s.last_withdrawal_check ∧
    (applyWrites w1 s).user_withdrawal_address = s.user_withdrawal_address ∧
    (applyWrites w1 s).user_withdrawal_currency = s.user_withdrawal_currency ∧
    (applyWrites w1 s).total_tax_provision = s.total_tax_provision ∧
    ∀ v, FinWrite.set_high_water_mark v ∉ w1 := by
  rcases hpa : s.pending_withdrawal_amount_usd with _ | p <;>
  rcases haddr : s.user_withdrawal_address with _ | addr <;>
  rcases hcur : s.pending_withdrawal_currency with _ | c <;>
  simp only [process_pending_writes, hpa, haddr, hcur, Option.some.injEq] at h <;>
  first
  | (obtain ⟨h1, h2⟩ := Prod.mk.injEq .. ▸ h
     subst h1
     simp [applyWrites, applyWrite, hpa, haddr, hcur])
  | cases h

theorem scheduled_hwm_charac (s1 : FinanceState) (inp : CycleInput) (v : ℚ)
    (hv : FinWrite.set_high_water_mark v ∈ (scheduled_check_writes s1 inp).1) :
    v = inp.account_value ∧
    ∃ u, s1.high_water_mark = some u ∧ u < inp.account_value := by
  unfold scheduled_check_writes at hv
  split_ifs at hv with hday hlast hlt
  · simp at hv
  · rcases hua : s1.user_withdrawal_address with _ | addr <;> rw [hua] at hv <;>
      simp only [List.mem_cons, List.not_mem_nil, or_false] at hv <;>
    · constructor
      · rcases hv with hv | hv
        · exact (FinWrite.set_high_water_mark.injEq .. ▸ hv)
        · exfalso; revert hv; simp
      · rcases hw : s1.high_water_mark with _ | u
        · rw [hw] at hlt; simp at hlt
        · refine ⟨u, rfl, ?_⟩; rw [hw] at hlt; simpa using hlt
  · simp at hv
  · simp at hv

theorem hwm_write_charac (s : FinanceState) (inp : CycleInput) (v : ℚ)
    (hv : FinWrite.set_high_water_mark v ∈ (check_and_process_writes s inp).1) :
    v = inp.account_value ∧
    ∃ u, s.high_water_mark = some u ∧ u < inp.account_value := by
  cases hpp : process_pending_writes s inp with
  | none => rw [check_and_process_writes, hpp] at hv; simp at hv
  | some p =>
    obtain ⟨w1, wd1⟩ := p
    rw [check_and_process_writes, hpp] at hv
    simp only [List.mem_append] at hv
    obtain ⟨hH, hL, hA, hC, hT, hno⟩ := drain_writes_shape s inp w1 wd1 hpp
    rcases hv with hv | hv
    · exact absurd hv (hno v)
    · have h := scheduled_hwm_charac (applyWrites w1 s) inp v hv
      rwa [hH] at h

theorem run_truncated_hwm (s : FinanceState) (inp : CycleInput) (k : Nat) :
    (run_truncated s inp k).high_water_mark = s.high_water_mark ∨
    ∃ u, s.high_water_mark = some u ∧ u < inp.account_value ∧
      (run_truncated s inp k).high_water_mark = some inp.account_value := by
  rcases applyWrites_hwm_cases ((check_and_process_writes s inp).1.take k) s with
    h | ⟨v, hv, he⟩
  · exact Or.inl h
  · have hmem : FinWrite.set_high_water_mark v ∈ (check_and_process_writes s inp).1 :=
      List.take_subset k _ hv
    obtain ⟨hva, u, hu, hlt⟩ := hwm_write_charac s inp v hmem
    exact Or.inr ⟨u, hu, hlt, by rw [← hva]; exact he⟩

theorem hwmRel_refl (a : Option ℚ) : hwmRel a a := Or.inl rfl

theorem hwmRel_trans {a b c : Option ℚ} (h1 : hwmRel a b) (h2 : hwmRel b c) :
    hwmRel a c := by
  rcases h1 with rfl | ⟨u, v, rfl, rfl, huv⟩
  · exact h2
  · rcases h2 with rfl | ⟨v2, w, hv2, rfl, hvw⟩
    · exact Or.inr ⟨u, v, rfl, rfl, huv⟩
    · obtain rfl : v = v2 := by injection hv2
      exact Or.inr ⟨u, w, rfl, rfl, huv.trans hvw⟩

theorem run_truncated_hwmRel (s : FinanceState) (inp : CycleInput) (k : Nat) :
    hwmRel s.high_water_mark (run_truncated s inp k).high_water_mark := by
  rcases run_truncated_hwm s inp k with h | ⟨u, hu, hlt, he⟩
  · exact Or.inl h.symm
  · exact Or.inr ⟨u, inp.account_value, hu, he, hlt⟩

theorem run_sequence_hwmRel (steps : List (CycleInput × Nat)) :
    ∀ s : FinanceState,
      hwmRel s.high_water_mark (run_sequence steps s).high_water_mark := by
  induction steps with
  | nil => intro s; exact hwmRel_refl _
  | cons p rest ih =>
    intro s
    exact hwmRel_trans (run_truncated_hwmRel s p.1 p.2) (ih _)

theorem scheduled_noop (s1 : FinanceState) (inp : CycleInput)
    (h : s1.last_withdrawal_check = some inp.today_str) :
    scheduled_check_writes s1 inp = ([], []) := by
  unfold scheduled_check_writes
  by_cases hday : inp.today_day ∈ WITHDRAWAL_DAYS
  · rw [if_pos hday, if_pos h]
  · rw [if_neg hday]

/-- The pending drain leaves the pending keys either unchanged (no pending
or no address) or cleared. -/
theorem drain_pending_shape (s : FinanceState) (inp : CycleInput)
    (w1 : List FinWrite) (wd1 : List Withdrawal)
    (h : process_pending_writes s inp = some (w1, wd1)) :
    ((applyWrites w1 s).pending_withdrawal_amount_usd =
        s.pending_withdrawal_amount_usd ∧
     (applyWrites w1 s).pending_withdrawal_currency =
        s.pending_withdrawal_currency) ∨
    ((applyWrites w1 s).pending_withdrawal_amount_usd = none ∧
     (applyWrites w1 s).pending_withdrawal_currency = none) := by
  rcases hpa : s.pending_withdrawal_amount_usd with _ | p <;>
  rcases haddr : s.user_withdrawal_address with _ | addr <;>
  rcases hcur : s.pending_withdrawal_currency with _ | c <;>
  simp only [process_pending_writes, hpa, haddr, hcur, Option.some.injEq] at h <;>
  first
  | (obtain ⟨h1, h2⟩ := Prod.mk.injEq .. ▸ h
     subst h1
     simp [applyWrites, applyWrite, hpa, hcur])
  | cases h

/-- On a day whose check already ran, the invocation reduces to the pending
drain alone. -/
theorem same_day_drain_only (s : FinanceState) (inp : CycleInput)
    (h : s.last_withdrawal_check = some inp.today_str) :
    check_and_process_withdrawal s inp =
      (process_pending_withdrawal s inp).getD (s, []) := by
  cases hpp : process_pending_writes s inp with
  | none =>
    simp [check_and_process_withdrawal, check_and_process_writes,
      process_pending_withdrawal, hpp, applyWrites]
  | some p =>
    obtain ⟨w1, wd1⟩ := p
    obtain ⟨hH, hL, hA, hC, hT, hno⟩ := drain_writes_shape s inp w1 wd1 hpp
    have hs1 : scheduled_check_writes (applyWrites w1 s) inp = ([], []) :=
      scheduled_noop _ _ (hL.trans h)
    simp [check_and_process_withdrawal, check_and_process_writes,
      process_pending_withdrawal, hpp, hs1]

theorem applyWrites_pending_none (ws : List FinWrite) :
    ∀ s : FinanceState,
      (∀ v, FinWrite.set_pending_amount v ∉ ws) →
      (∀ c, FinWrite.set_pending_currency c ∉ ws) →
      s.pending_withdrawal_amount_usd = none →
      s.pending_withdrawal_currency = none →
      (applyWrites ws s).pending_withdrawal_amount_usd = none ∧
      (applyWrites ws s).pending_withdrawal_currency = none := by
  induction ws with
  | nil => intro s _ _ h1 h2; exact ⟨h1, h2⟩
  | cons w ws ih =>
    intro s hv hc h1 h2
    rw [applyWrites_cons]
    refine ih (applyWrite s w) (fun v hmem => hv v (List.mem_cons_of_mem _ hmem))
      (fun c hmem => hc c (List.mem_cons_of_mem _ hmem)) ?_ ?_ <;>
    · cases w with
      | set_pending_amount v => exact absurd (List.mem_cons_self _ _) (hv v)
      | set_pending_currency c => exact absurd (List.mem_cons_self _ _) (hc c)
      | set_high_water_mark v => simp [applyWrite, h1, h2]
      | clear_pending_amount => simp [applyWrite, h1, h2]
      | clear_pending_currency => simp [applyWrite, h1, h2]
      | set_last_check d => simp [applyWrite, h1, h2]

/-- When a withdrawal address is configured, the scheduled check never
writes the pending keys (it withdraws immediately instead). -/
theorem scheduled_pending_free (s1 : FinanceState) (inp : CycleInput)
    (addr : String) (ha : s1.user_withdrawal_address = some addr) :
    (∀ v, FinWrite.set_pending_amount v ∉ (scheduled_check_writes s1 inp).1) ∧
    (∀ c, FinWrite.set_pending_currency c ∉ (scheduled_check_writes s1 inp).1) := by
  unfold scheduled_check_writes
  split_ifs <;>
    first
    | (rw [ha]; constructor <;> intro x <;> simp)
    | (constructor <;> intro x <;> simp)

theorem fold_fee_zero (df : PriceSeries) (rules : Rules) :
    ∀ (l : List Nat) (v : ℚ) (h : String),
      (l.foldl (fun acc t =>
        ((if period_asset df rules t ≠ acc.2 then acc.1 * (1 - (0:ℚ)) else acc.1) *
          (1 + portfolio_return df rules t), period_asset df rules t)) (v, h)).1 =
      v * (l.map (fun t => 1 + portfolio_return df rules t)).prod := by
  intro l
  induction l with
  | nil => intro v h; simp
  | cons t l ih =>
    intro v h
    rw [List.foldl_cons, List.map_cons, List.prod_cons]
    rw [ih]
    have hstep : (if period_asset df rules t ≠ h then v * (1 - (0:ℚ)) else v) = v := by
      split_ifs <;> ring
    rw [hstep]
    ring

theorem mem_insertDesc {x c : Config} :
    ∀ {l : List Config}, x ∈ insertDesc c l ↔ x = c ∨ x ∈ l := by
  intro l
  induction l with
  | nil => simp [insertDesc]
  | cons d ds ih =>
    rw [insertDesc]
    split_ifs with hle
    · simp
    · simp [ih, or_assoc, or_left_comm]

theorem insertDesc_perm (c : Config) :
    ∀ l : List Config, (insertDesc c l).Perm (c :: l) := by
  intro l
  induction l with
  | nil => rfl
  | cons d ds ih =>
    rw [insertDesc]
    split_ifs with hle
    · rfl
    · exact ((ih.cons d).trans (List.Perm.swap c d ds))

theorem insertDesc_pairwise (c : Config) :
    ∀ l : List Config,
      List.Pairwise (fun a b => configScore b ≤ configScore a) l →
      List.Pairwise (fun a b => configScore b ≤ configScore a) (insertDesc c l) := by
  intro l
  induction l with
  | nil => intro _; simp [insertDesc]
  | cons d ds ih =>
    intro hp
    rw [insertDesc]
    rcases hp with _ | ⟨hd, hds⟩
    split_ifs with hle
    · refine List.Pairwise.cons ?_ (List.Pairwise.cons hd hds)
      intro x hx
      rcases List.mem_cons.mp hx with rfl | hx
      · exact hle
      · exact (hd x hx).trans hle
    · refine List.Pairwise.cons ?_ (ih hds)
      intro x hx
      rcases mem_insertDesc.mp hx with rfl | hx
      · exact le_of_lt (lt_of_not_le hle)
      · exact hd x hx

theorem sortDesc_perm : ∀ l : List Config, (sortDesc l).Perm l := by
  intro l
  induction l with
  | nil => rfl
  | cons c cs ih => exact (insertDesc_perm c (sortDesc cs)).trans (ih.cons c)

theorem sortDesc_pairwise :
    ∀ l : List Config,
      List.Pairwise (fun a b => configScore b ≤ configScore a) (sortDesc l) := by
  intro l
  induction l with
  | nil => simp [sortDesc]
  | cons c cs ih => exact insertDesc_pairwise c (sortDesc cs) ih

/-- Every table has an admissible query result. -/
theorem sortDesc_isQueryResult (table : List Config) :
    IsQueryResult table (sortDesc table) :=
  ⟨sortDesc_perm table, sortDesc_pairwise table⟩

/-! ## Concrete fixtures: a 5-row single-asset price history with a
strictly rising btc price, and its evaluated signals and scores. -/

def df2 : PriceSeries := ⟨5, [("btc", [1, 2, 3, 4, 5])]⟩

theorem df2_mavg : rollingMean 2 [(1:ℚ), 2, 3, 4, 5] =
    [none, some (3/2), some (5/2), some (7/2), some (9/2)] := by
  norm_num [rollingMean, List.range_succ]

theorem df2_col : df2.col "btc" = [1, 2, 3, 4, 5] := by decide

theorem df2_cols : df2.cols = [("btc", [1, 2, 3, 4, 5])] := rfl

theorem df2_nrows : df2.nrows = 5 := rfl

theorem df2_signals : ranked_momentum_rotation_strategy df2 2 1 =
    [some "hold_usdt", some ("hold_" ++ "btc"), some ("hold_" ++ "btc"),
     some ("hold_" ++ "btc"), some ("hold_" ++ "btc")] := by
  norm_num [ranked_momentum_rotation_strategy, in_market, best_asset, momentum,
    df2_mavg, df2_col, df2_cols, df2_nrows, List.range_succ]

theorem df2_signals23 : ranked_momentum_rotation_strategy df2 2 3 =
    [some "hold_usdt", none, none, some ("hold_" ++ "btc"),
     some ("hold_" ++ "btc")] := by
  norm_num [ranked_momentum_rotation_strategy, in_market, best_asset, momentum,
    df2_mavg, df2_col, df2_cols, df2_nrows, List.range_succ]

theorem df2_backtest : backtest_strategy (some df2) ⟨2, 1⟩ = 5 / 2 := by
  have happ : ("hold_" ++ "btc" : String) = "hold_btc" := by decide
  have hsa : signal_asset "hold_btc" = some "btc" := by decide
  have hne : (("hold_btc" : String) = "hold_usdt") = False := by
    simp only [eq_iff_iff, iff_false]; decide
  have hmem : ("btc" ∈ price_assets df2) = True := by
    simp only [eq_iff_iff, iff_true]; decide
  norm_num [backtest_strategy, portfolio_return, held_asset_signal, df2_signals,
    happ, hsa, hne, hmem, pct_change, df2_col, df2_cols, df2_nrows,
    List.range_succ]

theorem df2_fee : backtest_with_fee_spec (1/10) df2 ⟨2, 1⟩ = 9 / 4 := by
  have happ : ("hold_" ++ "btc" : String) = "hold_btc" := by decide
  have hsa : signal_asset "hold_btc" = some "btc" := by decide
  have hne : (("hold_btc" : String) = "hold_usdt") = False := by
    simp only [eq_iff_iff, iff_false]; decide
  have hmem : ("btc" ∈ price_assets df2) = True := by
    simp only [eq_iff_iff, iff_true]; decide
  have hne2 : (("btc" : String) = "usdt") = False := by
    simp only [eq_iff_iff, iff_false]; decide
  norm_num [backtest_with_fee_spec, period_asset, portfolio_return,
    held_asset_signal, df2_signals, happ, hsa, hne, hne2, hmem, pct_change,
    df2_col, df2_cols, df2_nrows, List.range_succ]

theorem df2_switches : numSwitches df2 ⟨2, 1⟩ = 1 := by
  have happ : ("hold_" ++ "btc" : String) = "hold_btc" := by decide
  have hsa : signal_asset "hold_btc" = some "btc" := by decide
  have hne : (("hold_btc" : String) = "hold_usdt") = False := by
    simp only [eq_iff_iff, iff_false]; decide
  have hmem : ("btc" ∈ price_assets df2) = True := by
    simp only [eq_iff_iff, iff_true]; decide
  have hne2 : (("btc" : String) = "usdt") = False := by
    simp only [eq_iff_iff, iff_false]; decide
  norm_num [numSwitches, period_asset, held_asset_signal,
    df2_signals, happ, hsa, hne, hne2, hmem, df2_cols, df2_nrows,
    List.range_succ]

/-- The C1 spec scenario: stored high-water mark 10000, tax tally 0, nothing
pending, no user address, and an account value of 12000 on a scheduled
day. -/
def c1_state : FinanceState := ⟨some 10000, some 0, none, none, none, none, none⟩

def c1_input : CycleInput := ⟨1, "2025-11-01", 12000, fun _ => 1⟩

/-! ## Claims -/

/-- Claim C1, counterexample: in the spec scenario (account_value 12000,
high_water_mark 10000, no address configured) the pending withdrawal
recorded is the full 1000 USD, not the 800 the claim demands, and the
total_tax_provision key is not touched at all — the code performs no tax
split. -/
theorem claim1_counterexample :
    (check_and_process_withdrawal c1_state c1_input).1.pending_withdrawal_amount_usd =
      some 1000 ∧
    (check_and_process_withdrawal c1_state c1_input).1.pending_withdrawal_amount_usd ≠
      some 800 ∧
    (check_and_process_withdrawal c1_state c1_input).1.total_tax_provision =
      c1_state.total_tax_provision ∧
    (check_and_process_withdrawal c1_state c1_input).1.high_water_mark =
      some 12000 := by
  have hno : ((none : Option String) = some "2025-11-01") = False := by
    simp only [eq_iff_iff, iff_false]; decide
  norm_num [check_and_process_withdrawal, check_and_process_writes,
    process_pending_writes, scheduled_check_writes, applyWrites, applyWrite,
    c1_state, c1_input, WITHDRAWAL_DAYS, hno, PROFITS_WITHDRAWAL_PERCENTAGE,
    DEFAULT_WITHDRAWAL_CURRENCY]

/-- Claim C1 (amended): when the scheduled check finds
account_value > high_water_mark with no address configured, the full
distributable amount (account_value − high_water_mark) × 0.5 is pended,
there is no tax split, total_tax_provision is never modified, the
high-water mark becomes the account value, the pending currency is the
user's (default btc), the day is stamped, and no withdrawal is executed. -/
theorem claim1_amended (s : FinanceState) (inp : CycleInput) (h0 : ℚ)
    (hw : s.high_water_mark = some h0)
    (hlt : h0 < inp.account_value)
    (hp : s.pending_withdrawal_amount_usd = none)
    (hd : inp.today_day ∈ WITHDRAWAL_DAYS)
    (hl : ¬s.last_withdrawal_check = some inp.today_str)
    (ha : s.user_withdrawal_address = none) :
    (check_and_process_withdrawal s inp).1.pending_withdrawal_amount_usd =
      some ((inp.account_value - h0) * PROFITS_WITHDRAWAL_PERCENTAGE) ∧
    (check_and_process_withdrawal s inp).1.high_water_mark =
      some inp.account_value ∧
    (check_and_process_withdrawal s inp).1.total_tax_provision =
      s.total_tax_provision ∧
    (check_and_process_withdrawal s inp).1.pending_withdrawal_currency =
      some (s.user_withdrawal_currency.getD DEFAULT_WITHDRAWAL_CURRENCY) ∧
    (check_and_process_withdrawal s inp).1.last_withdrawal_check =
      some inp.today_str ∧
    (check_and_process_withdrawal s inp).2 = [] := by
  have hpp : process_pending_writes s inp = some ([], []) := by
    simp [process_pending_writes, hp]
  have hsched : scheduled_check_writes s inp =
      ([.set_high_water_mark inp.account_value,
        .set_pending_amount
          ((inp.account_value - h0) * PROFITS_WITHDRAWAL_PERCENTAGE),
        .set_pending_currency
          (s.user_withdrawal_currency.getD DEFAULT_WITHDRAWAL_CURRENCY),
        .set_last_check inp.today_str], []) := by
    unfold scheduled_check_writes
    rw [if_pos hd, if_neg hl, hw, ha]
    simp [hlt]
  simp [check_and_process_withdrawal, check_and_process_writes, hpp,
    applyWrites, hsched, applyWrite]

/-- Claim C1 (amended), witness: the amended behaviour evaluated at the
spec scenario. -/
theorem claim1_amended_witness :
    (10000 : ℚ) < c1_input.account_value ∧
    ((check_and_process_withdrawal c1_state c1_input).1.pending_withdrawal_amount_usd =
      some ((c1_input.account_value - 10000) * PROFITS_WITHDRAWAL_PERCENTAGE) ∧
    (check_and_process_withdrawal c1_state c1_input).1.high_water_mark =
      some c1_input.account_value ∧
    (check_and_process_withdrawal c1_state c1_input).1.total_tax_provision =
      c1_state.total_tax_provision ∧
    (check_and_process_withdrawal c1_state c1_input).1.pending_withdrawal_currency =
      some (c1_state.user_withdrawal_currency.getD DEFAULT_WITHDRAWAL_CURRENCY) ∧
    (check_and_process_withdrawal c1_state c1_input).1.last_withdrawal_check =
      some c1_input.today_str ∧
    (check_and_process_withdrawal c1_state c1_input).2 = []) :=
  ⟨by norm_num [c1_input],
   claim1_amended c1_state c1_input 10000 rfl (by norm_num [c1_input]) rfl
     (by decide) (by decide) rfl⟩

/-- Claim C2, counterexample: with price series [1,2,3,4,5], trend_window 2
and momentum_window 3 (momentum_window < length), the claim demands the
first max(2,3) − 1 = 2 signals be undefined, but the signal at row 0 is the
defined value hold_usdt: where the trend line is undefined the code
defaults the signal rather than propagating undefined. -/
theorem claim2_counterexample :
    (ranked_momentum_rotation_strategy df2 2 3).length = 5 ∧
    (ranked_momentum_rotation_strategy df2 2 3)[0]? =
      some (some "hold_usdt") ∧
    (ranked_momentum_rotation_strategy df2 2 3)[0]? ≠ some none := by
  rw [df2_signals23]
  refine ⟨rfl, rfl, ?_⟩
  intro h
  simp at h

/-- Claim C2 (amended): for every price series and window pair the Signal
Generator output length equals the input length; rows where the regime flag
is false (in particular every row whose trend line is undefined, since a
pandas NaN comparison is false) get the defined signal hold_usdt; and a
signal is undefined exactly at rows where the regime flag is true and the
best-asset momentum ranking is undefined. -/
theorem claim2_amended (df : PriceSeries) (tw mw : Nat) :
    (ranked_momentum_rotation_strategy df tw mw).length = df.nrows ∧
    (∀ t, t < df.nrows → in_market df tw t = false →
      (ranked_momentum_rotation_strategy df tw mw)[t]? =
        some (some "hold_usdt")) ∧
    (∀ t, t < df.nrows →
      ((ranked_momentum_rotation_strategy df tw mw)[t]? = some none ↔
        in_market df tw t = true ∧ best_asset df mw t = none)) := by
  have hget : ∀ t, t < df.nrows →
      (ranked_momentum_rotation_strategy df tw mw)[t]? =
        some (if in_market df tw t then
          (best_asset df mw t).map (fun a => "hold_" ++ a)
        else some "hold_usdt") := by
    intro t ht
    rw [ranked_momentum_rotation_strategy, List.getElem?_map,
      List.getElem?_range ht, Option.map_some']
  refine ⟨by simp [ranked_momentum_rotation_strategy], ?_, ?_⟩
  · intro t ht hmkt
    rw [hget t ht, hmkt]
    simp
  · intro t ht
    rw [hget t ht]
    cases hm : in_market df tw t with
    | false => simp
    | true =>
      simp only [if_true, Option.some.injEq, true_and]
      cases hb : best_asset df mw t with
      | none => simp
      | some a => simp

/-- Claim C2 (amended), witness: at the concrete series, row 0 (trend line
undefined, regime flag false) yields the defined hold_usdt signal. -/
theorem claim2_amended_witness :
    in_market df2 2 0 = false ∧
    (ranked_momentum_rotation_strategy df2 2 3)[0]? =
      some (some "hold_usdt") := by
  have hm : in_market df2 2 0 = false := by
    rw [in_market, df2_col, df2_mavg]
    rfl
  exact ⟨hm, (claim2_amended df2 2 3).2.1 0 (by decide) hm⟩

/-- Claim C3, counterexample: the Backtest Engine takes no fee rate and
applies no fee factor: on a series with exactly one asset switch its score
is the fee-free product 5/2, which differs from the 9/4 that applying
(1 − fee_rate) once at the switch (fee_rate 1/10, per the claim) would
give — so the score does not strictly decrease as the fee rate rises. -/
theorem claim3_counterexample :
    numSwitches df2 ⟨2, 1⟩ = 1 ∧
    backtest_strategy (some df2) ⟨2, 1⟩ = 5 / 2 ∧
    backtest_with_fee_spec (1/10) df2 ⟨2, 1⟩ = 9 / 4 ∧
    backtest_with_fee_spec (1/10) df2 ⟨2, 1⟩ ≠
      backtest_strategy (some df2) ⟨2, 1⟩ := by
  refine ⟨df2_switches, df2_backtest, df2_fee, ?_⟩
  rw [df2_fee, df2_backtest]
  norm_num

/-- Claim C3 (amended): the code's backtest score coincides with the
spec-modelled fee-applying backtest at fee rate 0 on every input — the
engine charges no per-switch fee, so its score is unaffected by any fee
rate. -/
theorem claim3_amended (df : PriceSeries) (rules : Rules) :
    backtest_strategy (some df) rules = backtest_with_fee_spec 0 df rules := by
  rw [backtest_strategy, backtest_with_fee_spec]
  split_ifs with h
  · rfl
  · rw [fold_fee_zero df rules (List.range df.nrows) 1 "usdt", one_mul]

/-- Claim C4: across any sequence of Profit Distribution invocations, each
of which may fail after any prefix of its store writes, the persisted
high-water mark never decreases — an invocation leaves it unchanged or, if
it was present and below the account value, sets it to that strictly larger
account value. -/
theorem claim4_hwm_monotone :
    (∀ (s : FinanceState) (inp : CycleInput) (k : Nat),
      (run_truncated s inp k).high_water_mark = s.high_water_mark ∨
      ∃ u, s.high_water_mark = some u ∧ u < inp.account_value ∧
        (run_truncated s inp k).high_water_mark = some inp.account_value) ∧
    (∀ (steps : List (CycleInput × Nat)) (s : FinanceState),
      hwmRel s.high_water_mark (run_sequence steps s).high_water_mark) :=
  ⟨run_truncated_hwm, fun steps s => run_sequence_hwmRel steps s⟩

/-- Claim C5: once last_withdrawal_check equals today's date string, a
second invocation that day is the pending drain alone — it performs no
profit recognition, leaves the high-water mark and the stamp unchanged, and
the pending amount is at most cleared (by the drain), never newly
written. -/
theorem claim5_same_day_idempotent (s : FinanceState) (inp : CycleInput)
    (h : s.last_withdrawal_check = some inp.today_str) :
    check_and_process_withdrawal s inp =
      (process_pending_withdrawal s inp).getD (s, []) ∧
    (check_and_process_withdrawal s inp).1.high_water_mark =
      s.high_water_mark ∧
    (check_and_process_withdrawal s inp).1.last_withdrawal_check =
      s.last_withdrawal_check ∧
    ((check_and_process_withdrawal s inp).1.pending_withdrawal_amount_usd =
        s.pending_withdrawal_amount_usd ∨
     (check_and_process_withdrawal s inp).1.pending_withdrawal_amount_usd =
        none) := by
  rw [same_day_drain_only s inp h]
  cases hpp : process_pending_writes s inp with
  | none =>
    simp [process_pending_withdrawal, hpp]
  | some p =>
    obtain ⟨w1, wd1⟩ := p
    obtain ⟨hH, hL, hA, hC, hT, hno⟩ := drain_writes_shape s inp w1 wd1 hpp
    have hpd := drain_pending_shape s inp w1 wd1 hpp
    simp only [process_pending_withdrawal, hpp, Option.map_some',
      Option.getD_some]
    refine ⟨trivial, hH, hL, ?_⟩
    rcases hpd with ⟨h1, _⟩ | ⟨h1, _⟩
    · exact Or.inl h1
    · exact Or.inr h1

def c5_state : FinanceState :=
  ⟨some 5000, none, some 300, some "eth", some "2025-12-01", none, none⟩

def c5_input : CycleInput := ⟨1, "2025-12-01", 9999, fun _ => 1⟩

/-- Claim C5, witness: a second same-day invocation on a state with a
pending withdrawal and no address leaves everything as the drain does. -/
theorem claim5_witness :
    c5_state.last_withdrawal_check = some c5_input.today_str ∧
    (check_and_process_withdrawal c5_state c5_input =
      (process_pending_withdrawal c5_state c5_input).getD (c5_state, []) ∧
    (check_and_process_withdrawal c5_state c5_input).1.high_water_mark =
      c5_state.high_water_mark ∧
    (check_and_process_withdrawal c5_state c5_input).1.last_withdrawal_check =
      c5_state.last_withdrawal_check ∧
    ((check_and_process_withdrawal c5_state c5_input).1.pending_withdrawal_amount_usd =
        c5_state.pending_withdrawal_amount_usd ∨
     (check_and_process_withdrawal c5_state c5_input).1.pending_withdrawal_amount_usd =
        none)) :=
  ⟨rfl, claim5_same_day_idempotent c5_state c5_input rfl⟩

/-- Claim C6: the pending drain runs on every invocation before the
scheduled-day check.  If a pending amount, the pending currency and a user
address all exist, the drain executes the withdrawal at the current asset
price (pending_usd / price) and clears both pending keys — and the full
invocation also ends with both pending keys clear and that withdrawal
first.  If the address is still absent, the drain returns the store
untouched. -/
theorem claim6_pending_drain (s : FinanceState) (inp : CycleInput) :
    (∀ p addr c, s.pending_withdrawal_amount_usd = some p →
      s.user_withdrawal_address = some addr →
      s.pending_withdrawal_currency = some c →
      process_pending_withdrawal s inp =
        some ({ s with pending_withdrawal_amount_usd := none,
                       pending_withdrawal_currency := none },
              [⟨p / inp.asset_price c, c, addr⟩]) ∧
      (check_and_process_withdrawal s inp).2.head? =
        some ⟨p / inp.asset_price c, c, addr⟩ ∧
      (check_and_process_withdrawal s inp).1.pending_withdrawal_amount_usd =
        none ∧
      (check_and_process_withdrawal s inp).1.pending_withdrawal_currency =
        none) ∧
    (s.user_withdrawal_address = none →
      process_pending_withdrawal s inp = some (s, [])) := by
  constructor
  · intro p addr c hp ha hc
    have hpp : process_pending_writes s inp =
        some ([.clear_pending_amount, .clear_pending_currency],
          [⟨p / inp.asset_price c, c, addr⟩]) := by
      simp [process_pending_writes, hp, ha, hc]
    have hstate : applyWrites [FinWrite.clear_pending_amount,
        FinWrite.clear_pending_currency] s =
        { s with pending_withdrawal_amount_usd := none,
                 pending_withdrawal_currency := none } := rfl
    refine ⟨by simp [process_pending_withdrawal, hpp, hstate], ?_, ?_⟩
    · simp [check_and_process_withdrawal, check_and_process_writes, hpp]
    · have hs1a : (applyWrites [FinWrite.clear_pending_amount,
          FinWrite.clear_pending_currency] s).user_withdrawal_address =
          some addr := ha
      obtain ⟨hnv, hnc⟩ := scheduled_pending_free _ inp addr hs1a
      have hres := applyWrites_pending_none
        (scheduled_check_writes (applyWrites [FinWrite.clear_pending_amount,
          FinWrite.clear_pending_currency] s) inp).1
        (applyWrites [FinWrite.clear_pending_amount,
          FinWrite.clear_pending_currency] s) hnv hnc rfl rfl
      constructor
      · rw [check_and_process_withdrawal]
        rw [check_and_process_writes, hpp]
        simp only [applyWrites, List.foldl_append] at hres ⊢
        exact hres.1
      · rw [check_and_process_withdrawal]
        rw [check_and_process_writes, hpp]
        simp only [applyWrites, List.foldl_append] at hres ⊢
        exact hres.2
  · intro ha
    rcases hp : s.pending_withdrawal_amount_usd with _ | p <;>
      simp [process_pending_withdrawal, process_pending_writes, hp, ha,
        applyWrites]

def c6_state : FinanceState :=
  ⟨none, none, some 100, some "btc", none, some "addr1", none⟩

def c6_input : CycleInput := ⟨3, "2025-12-03", 500, fun _ => 2⟩

/-- Claim C6, witness: a pending 100 USD plus a now-present address is
drained at price 2 into a 100/2 crypto withdrawal, clearing both keys, even
on a non-scheduled day. -/
theorem claim6_witness :
    c6_state.pending_withdrawal_amount_usd = some 100 ∧
    (process_pending_withdrawal c6_state c6_input =
      some ({ c6_state with pending_withdrawal_amount_usd := none,
                            pending_withdrawal_currency := none },
            [⟨100 / c6_input.asset_price "btc", "btc", "addr1"⟩]) ∧
    (check_and_process_withdrawal c6_state c6_input).2.head? =
      some ⟨100 / c6_input.asset_price "btc", "btc", "addr1"⟩ ∧
    (check_and_process_withdrawal c6_state c6_input).1.pending_withdrawal_amount_usd =
      none ∧
    (check_and_process_withdrawal c6_state c6_input).1.pending_withdrawal_currency =
      none) :=
  ⟨rfl, (claim6_pending_drain c6_state c6_input).1 100 "addr1" "btc" rfl rfl rfl⟩

def cfgA : Config := ⟨1, 2, 1, 0, 0⟩

def cfgB : Config := ⟨2, 2, 1, 0, 0⟩

/-- Claim C7: the shadow-simulation loop is not failure-isolated per
member.  With council [cfgA, cfgB] over the rising 5-row series, a
persistence failure on cfgA (id 1) aborts the loop and leaves the whole
table — in particular cfgB's shadow_score — unchanged, although the
failure-free run would have added 5/2 to cfgB's shadow_score. -/
theorem claim7_failure_not_isolated :
    run_shadow_simulation (fun i => i == 1) (some df2) [cfgA, cfgB]
      [cfgA, cfgB] = [cfgA, cfgB] ∧
    run_shadow_simulation (fun _ => false) (some df2) [cfgA, cfgB]
      [cfgA, cfgB] =
      [{ cfgA with shadow_score := 5/2 }, { cfgB with shadow_score := 5/2 }] ∧
    ({ cfgB with shadow_score := (5/2 : ℚ) } ≠ cfgB) := by
  refine ⟨rfl, ?_, ?_⟩
  · norm_num [run_shadow_simulation, update_shadow_score, cfgA, cfgB,
      df2_backtest]
  · intro h
    have hsc := congrArg Config.shadow_score h
    norm_num [cfgB] at hsc

/-- Claim C8, counterexample: on a store of two configurations with equal
combined score (cfgA before cfgB in insertion order), both row orders are
admissible results of the ORDER BY query — no secondary sort key pins the
tie — so the reversed order [cfgB, cfgA] is a possible nomination, refuting
the claimed guarantee that ties are broken by insertion order (stable
sort). -/
theorem claim8_counterexample :
    configScore cfgA = configScore cfgB ∧
    nominate_council_from_hall_of_fame [cfgA, cfgB] [cfgA, cfgB] ∧
    nominate_council_from_hall_of_fame [cfgA, cfgB] [cfgB, cfgA] ∧
    ([cfgB, cfgA] : List Config) ≠ [cfgA, cfgB] := by
  refine ⟨by norm_num [configScore, cfgA, cfgB], ?_, ?_, by simp [cfgA, cfgB]⟩
  · exact ⟨[cfgA, cfgB],
      ⟨List.Perm.refl _,
       by norm_num [List.pairwise_cons, configScore, cfgA, cfgB]⟩, rfl⟩
  · exact ⟨[cfgB, cfgA],
      ⟨List.Perm.swap cfgA cfgB [],
       by norm_num [List.pairwise_cons, configScore, cfgA, cfgB]⟩, rfl⟩

/-- Claim C8 (amended): every possible nomination from the stored table is
the first NUM_COUNCIL_MEMBERS rows of some permutation of the table sorted
descending by backtest_score + shadow_score (the tie order among equal
scores being unspecified by the query): it is sorted descending, its length
is min(K, table size), an empty store admits only the empty council (no
error), an admissible result always exists, and the store is not modified
(the model is a pure relation over it). -/
theorem claim8_amended (table council res : List Config)
    (hres : IsQueryResult table res)
    (hc : council = res.take NUM_COUNCIL_MEMBERS) :
    nominate_council_from_hall_of_fame table council ∧
    List.Pairwise (fun a b => configScore b ≤ configScore a) council ∧
    council.length = min NUM_COUNCIL_MEMBERS table.length ∧
    (table = [] → council = []) ∧
    IsQueryResult table (sortDesc table) := by
  obtain ⟨hperm, hsorted⟩ := hres
  subst hc
  refine ⟨⟨res, ⟨hperm, hsorted⟩, rfl⟩, hsorted.sublist (List.take_sublist _ _),
    ?_, ?_, sortDesc_isQueryResult table⟩
  · rw [List.length_take, hperm.length_eq]
  · intro htable
    subst htable
    rw [hperm.eq_nil, List.take_nil]

def cfgT : Config := ⟨3, 40, 15, 2, 1⟩

/-- Claim C8 (amended), witness: a concrete two-row store (scores 3 and 0)
whose sorted order is itself an admissible result, nominated whole. -/
theorem claim8_amended_witness :
    IsQueryResult [cfgT, cfgA] [cfgT, cfgA] ∧
    (nominate_council_from_hall_of_fame [cfgT, cfgA]
        (([cfgT, cfgA] : List Config).take NUM_COUNCIL_MEMBERS) ∧
     List.Pairwise (fun a b => configScore b ≤ configScore a)
        (([cfgT, cfgA] : List Config).take NUM_COUNCIL_MEMBERS) ∧
     (([cfgT, cfgA] : List Config).take NUM_COUNCIL_MEMBERS).length =
        min NUM_COUNCIL_MEMBERS ([cfgT, cfgA] : List Config).length ∧
     (([cfgT, cfgA] : List Config) = [] →
        (([cfgT, cfgA] : List Config).take NUM_COUNCIL_MEMBERS) = []) ∧
     IsQueryResult [cfgT, cfgA] (sortDesc [cfgT, cfgA])) := by
  have hq : IsQueryResult [cfgT, cfgA] [cfgT, cfgA] :=
    ⟨List.Perm.refl _,
     by norm_num [List.pairwise_cons, configScore, cfgT, cfgA]⟩
  exact ⟨hq, claim8_amended [cfgT, cfgA] _ [cfgT, cfgA] hq rfl⟩

/-- Claim C9: the Backtest Engine returns the sentinel 0 for a null input
and for any empty DataFrame (no rows, or no columns), without raising. -/
theorem claim9_empty_sentinel :
    (∀ rules : Rules, backtest_strategy none rules = 0) ∧
    (∀ (rules : Rules) (df : PriceSeries), df.nrows = 0 ∨ df.cols = [] →
      backtest_strategy (some df) rules = 0) := by
  refine ⟨fun rules => rfl, fun rules df h => ?_⟩
  rw [backtest_strategy, if_pos h]

def emptySeries : PriceSeries := ⟨0, []⟩

/-- Claim C9, witness: the sentinel at a concrete empty series and at the
null input. -/
theorem claim9_witness :
    (emptySeries.nrows = 0 ∨ emptySeries.cols = []) ∧
    backtest_strategy (some emptySeries) ⟨50, 20⟩ = 0 ∧
    backtest_strategy none ⟨50, 20⟩ = 0 :=
  ⟨Or.inl rfl, claim9_empty_sentinel.2 ⟨50, 20⟩ emptySeries (Or.inl rfl),
   claim9_empty_sentinel.1 ⟨50, 20⟩⟩

/-- Claim C10: on the first scheduled check ever run (no high_water_mark
key, nothing pending), the high-water mark defaults to the account value
read in the same invocation, the strict comparison fails, and the
invocation only stamps last_withdrawal_check: state otherwise unchanged
(the high-water-mark key stays absent), no withdrawal executed, nothing
pended. -/
theorem claim10_first_run_stamps_only (s : FinanceState) (inp : CycleInput)
    (hw : s.high_water_mark = none)
    (hp : s.pending_withdrawal_amount_usd = none)
    (hd : inp.today_day ∈ WITHDRAWAL_DAYS)
    (hl : ¬s.last_withdrawal_check = some inp.today_str) :
    check_and_process_withdrawal s inp =
      ({ s with last_withdrawal_check := some inp.today_str }, []) := by
  have hpp : process_pending_writes s inp = some ([], []) := by
    simp [process_pending_writes, hp]
  have hsched : scheduled_check_writes s inp =
      ([.set_last_check inp.today_str], []) := by
    unfold scheduled_check_writes
    rw [if_pos hd, if_neg hl, hw]
    simp
  simp [check_and_process_withdrawal, check_and_process_writes, hpp,
    applyWrites, hsched, applyWrite]

def c10_state : FinanceState := ⟨none, none, none, none, none, none, none⟩

def c10_input : CycleInput := ⟨15, "2026-01-15", 777, fun _ => 1⟩

/-- Claim C10, witness: the first-ever scheduled check on an empty store
only stamps the date. -/
theorem claim10_witness :
    c10_input.today_day ∈ WITHDRAWAL_DAYS ∧
    check_and_process_withdrawal c10_state c10_input =
      ({ c10_state with last_withdrawal_check := some c10_input.today_str },
       []) :=
  ⟨by decide,
   claim10_first_run_stamps_only c10_state c10_input rfl rfl (by decide)
     (by decide)⟩

end OracleTrader
